import Mathlib

/-!
Shallow embedding of the `unix-exec-output-catcher` crate's capture engine
(src/pipe.rs, src/child.rs, src/reader.rs, src/lib.rs).

OS effects (the `read`, `close`, `fork`, `waitpid` syscalls) are modelled by
scripting their outcomes as explicit parameters: a byte-stream is a list of
per-`read` outcomes, a syscall's return value is passed in, and `Instant::now()`
is a natural-number clock that advances by one per byte read.  Rust panics
(`unwrap` / `expect`) are modelled by dedicated result constructors, since a
panic aborts without returning a value to the caller.
-/

namespace Ueco

/-- `ProcessState` from src/child.rs: the state a child process can be in. -/
inductive ProcessState
  | Ready
  | Running
  | FinishedSuccess
  | FinishedError (code : Int)
  deriving DecidableEq, Repr

/-- `OCatchStrategy` from src/lib.rs. -/
inductive OCatchStrategy
  | StdCombined
  | StdSeparately
  deriving DecidableEq, Repr

/-- `UECOError` from src/error.rs.  The spec renames some variants:
`ForkFailed` is the spec's `ProcessSpawnFailed`, `CloseFailed` is
`DescriptorCloseFailed`, `WaitpidFailed` is `ProcessStatusQueryFailed`,
`PipeNotMarkedAsReadEnd` is `ChannelNotReadable`. -/
inductive UECOError
  | PipeFailed (errno : Int)
  | Dup2Failed (errno : Int)
  | ExecvpFailed (errno : Int)
  | WaitpidFailed (errno : Int)
  | ReadFailed (errno : Int)
  | ForkFailed (errno : Int)
  | CloseFailed (errno : Int)
  | PipeNotMarkedAsReadEnd
  | ChildAlreadyDispatched
  | Unknown
  deriving DecidableEq, Repr

/-- `PipeEnd` from src/pipe.rs. -/
inductive PipeEnd
  | Read
  | Write
  deriving DecidableEq, Repr

/-- The mutable fields of `Pipe` (src/pipe.rs).  The two descriptors are kept
abstract integers; `endMarker` embeds the `end : Option<PipeEnd>` field. -/
structure PipeState where
  endMarker : Option PipeEnd
  read_fd : Int
  write_fd : Int
  deriving DecidableEq, Repr

/-- One outcome of the one-byte `libc::read` call in `Pipe::read_char`
(src/pipe.rs lines 135-151): a byte, a zero-length read (EOF), or a
failure with an errno. -/
inductive ReadEvent
  | byte (c : Char)
  | eof
  | fail (errno : Int)
  deriving DecidableEq, Repr

/-- Result of `Pipe::read_line`.  `panicked` models the `expect` on the
unassigned end marker (src/pipe.rs line 91), which aborts instead of
returning; `blocked` is a modelling artefact for a script that ends while
the loop still wants bytes (a real read would block). -/
inductive RLResult
  | panicked
  | blocked
  | err (e : UECOError)
  | ok (r : Option (Nat × String))
  deriving DecidableEq, Repr

/-- The byte-accumulation loop of `Pipe::read_line` (src/pipe.rs lines 95-115):
read one byte per iteration; a failed read propagates `ReadFailed`; a
zero-length read returns `Ok(None)` discarding the accumulated `chars`; a
newline returns the accumulated characters (newline excluded) together with
the clock value at the moment the newline is observed.  Returns the unread
remainder of the script alongside the outcome. -/
def readLineLoop : List ReadEvent → Nat → List Char → RLResult × List ReadEvent
  | [], _, _ => (RLResult.blocked, [])
  | ev :: rest, clock, chars =>
    match ev with
    | ReadEvent.fail errno => (RLResult.err (UECOError.ReadFailed errno), rest)
    | ReadEvent.eof => (RLResult.ok none, rest)
    | ReadEvent.byte c =>
      if c = '\n' then (RLResult.ok (some (clock, String.mk chars)), rest)
      else readLineLoop rest (clock + 1) (chars ++ [c])

/-- `Pipe::read_line` (src/pipe.rs lines 90-116).  If the end marker is not
yet set, the `expect` panics; if it is set but not `Read`, the function
returns `PipeNotMarkedAsReadEnd` before touching the descriptor.  Otherwise
it runs the byte loop.  The returned list is the portion of the scripted
byte stream that was not consumed. -/
def read_line (endMarker : Option PipeEnd) (stream : List ReadEvent) (clock : Nat) :
    RLResult × List ReadEvent :=
  match endMarker with
  | none => (RLResult.panicked, stream)
  | some e =>
    if e = PipeEnd.Read then readLineLoop stream clock []
    else (RLResult.err UECOError.PipeNotMarkedAsReadEnd, stream)

/-- `Pipe::close_fd` (src/pipe.rs lines 153-157) through `libc_ret_to_result`
(src/libc_util.rs): `-1` maps to `CloseFailed(errno)`, anything else to `Ok`. -/
def close_fd (ret errno : Int) : Except UECOError Unit :=
  if ret = -1 then Except.error (UECOError.CloseFailed errno) else Except.ok ()

/-- `Pipe::mark_as_parent_process` (src/pipe.rs lines 74-78): sets the end
marker to `Read` first, then tries to close the write descriptor (its
scripted outcome is `closeRet`/`closeErrno`).  The updated pipe state is
returned even when the close fails. -/
def mark_as_parent_process (p : PipeState) (closeRet closeErrno : Int) :
    PipeState × Except UECOError Unit :=
  let p' := { p with endMarker := some PipeEnd.Read }
  (p', close_fd closeRet closeErrno)

/-- `Pipe::mark_as_child_process` (src/pipe.rs lines 80-84): sets the end
marker to `Write` first, then tries to close the read descriptor. -/
def mark_as_child_process (p : PipeState) (closeRet closeErrno : Int) :
    PipeState × Except UECOError Unit :=
  let p' := { p with endMarker := some PipeEnd.Write }
  (p', close_fd closeRet closeErrno)

/-- Linux/glibc wait-status macros as used through the `libc` crate in
`ChildProcess::check_state_nbl` (src/child.rs lines 135-139).  A wait
status is a 16-bit value: the low 7 bits are the terminating signal
(0 for a normal exit), bit 7 is the core-dump flag, and the high byte is
the exit code of a normal exit. -/
def WTERMSIG (status : Nat) : Nat := status % 128

/-- glibc `WIFEXITED`: the child exited normally iff the signal bits are 0. -/
def WIFEXITED (status : Nat) : Bool := WTERMSIG status = 0

/-- glibc `WIFSIGNALED`: `((signed char)(((status & 0x7f) + 1) >> 1)) > 0`.
For `t = status % 128` in `0..=127` this signed-char arithmetic is positive
exactly when `0 < t < 127` (at `t = 127` the cast wraps negative). -/
def WIFSIGNALED (status : Nat) : Bool :=
  0 < status % 128 && status % 128 < 127

/-- glibc `WEXITSTATUS`: the high byte of the status. -/
def WEXITSTATUS (status : Nat) : Nat := status / 256 % 256

/-- The mutable fields of `ChildProcess` (src/child.rs) that the lifecycle
logic touches: the child pid (set after fork), the cached exit code, and
the lifecycle state. -/
structure ChildState where
  pid : Option Int
  exit_code : Option Int
  state : ProcessState
  deriving DecidableEq, Repr

/-- Result of one `check_state_nbl` poll.  `panicked` models the two aborts
in src/child.rs lines 116-117: `self.pid.unwrap()` on a missing pid
(carrying no error value) and `libc_ret_to_result(ret, Waitpid).unwrap()`
on a failed `waitpid` (carrying the `WaitpidFailed` value the panic
formats).  `ok queried c ret` gives whether a `waitpid` query was issued,
the updated child state, and the returned `ProcessState`. -/
inductive PollResult
  | panicked (e : Option UECOError)
  | ok (queried : Bool) (c : ChildState) (ret : ProcessState)
  deriving DecidableEq, Repr

/-- `ChildProcess::check_state_nbl` (src/child.rs lines 107-152).  The
scripted `waitpid` outcome is `(ret, errno, status)`: their return value,
the errno should it fail, and the filled-in wait status.  If the stored
state is not `Running` the function returns it unchanged without querying
the OS.  Otherwise it queries; `ret = -1` makes the `unwrap` panic;
`ret = 0` leaves the state as is; else the status is decoded, and when the
child exited normally or by signal, `WEXITSTATUS` is recorded as the exit
code and the state becomes `FinishedSuccess` (code 0) or
`FinishedError(code)`. -/
def check_state_nbl (c : ChildState) (wp : Int × Int × Nat) : PollResult :=
  if c.state ≠ ProcessState.Running then PollResult.ok false c c.state
  else
    match c.pid with
    | none => PollResult.panicked none
    | some _ =>
      let (ret, errno, status) := wp
      if ret = -1 then PollResult.panicked (some (UECOError.WaitpidFailed errno))
      else if ret = 0 then PollResult.ok true c c.state
      else
        let exited_normally := WIFEXITED status
        let exited_by_signal := WIFSIGNALED status
        let exit_code : Int := (WEXITSTATUS status : Int)
        if exited_normally || exited_by_signal then
          let st :=
            if exit_code = 0 then ProcessState.FinishedSuccess
            else ProcessState.FinishedError exit_code
          let c' := { c with exit_code := some exit_code, state := st }
          PollResult.ok true c' c'.state
        else PollResult.ok true c c.state

/-- Rank of a lifecycle state along `Ready → Running → Finished*`,
used to state monotonicity of polling. -/
def stateRank : ProcessState → Nat
  | ProcessState.Ready => 0
  | ProcessState.Running => 1
  | ProcessState.FinishedSuccess => 2
  | ProcessState.FinishedError _ => 2

/-- Whether a state is terminal (`FinishedSuccess` or `FinishedError`). -/
def isTerminal : ProcessState → Bool
  | ProcessState.FinishedSuccess => true
  | ProcessState.FinishedError _ => true
  | _ => false

/-- Observable outcome of `ChildProcess::dispatch` (one branch of the fork):
the handle's state field, whether each hook ran, the recorded pid, and the
returned value. -/
structure DispatchOutcome where
  state : ProcessState
  childHookRan : Bool
  parentHookRan : Bool
  pid : Option Int
  result : Except UECOError Int
  deriving Repr

/-- `ChildProcess::dispatch` (src/child.rs lines 78-104).  The source sets
`self.state = Running` BEFORE calling `fork`.  A scripted `forkRet` of
`-1` is the failed fork (errno `forkErrno`): the error propagates and
neither hook runs.  `forkRet = 0` is the child branch: the child hook
runs; if it succeeds, `exec` runs (scripted outcome `execRes`); code after
a successful `exec` is unreachable in reality, and the source's fallthrough
returns `Err(Unknown)`.  A positive `forkRet` is the parent branch: the
pid is recorded, then the parent hook runs and its error propagates. -/
def dispatch (st0 : ProcessState) (forkRet forkErrno : Int)
    (childHook parentHook execRes : Except UECOError Unit) : DispatchOutcome :=
  let state := ProcessState.Running
  let _ := st0
  if forkRet = -1 then
    { state, childHookRan := false, parentHookRan := false, pid := none,
      result := Except.error (UECOError.ForkFailed forkErrno) }
  else if forkRet = 0 then
    match childHook with
    | Except.error e =>
      { state, childHookRan := true, parentHookRan := false, pid := none,
        result := Except.error e }
    | Except.ok _ =>
      match execRes with
      | Except.error e =>
        { state, childHookRan := true, parentHookRan := false, pid := none,
          result := Except.error e }
      | Except.ok _ =>
        { state, childHookRan := true, parentHookRan := false, pid := none,
          result := Except.error UECOError.Unknown }
  else
    match parentHook with
    | Except.error e =>
      { state, childHookRan := false, parentHookRan := true, pid := some forkRet,
        result := Except.error e }
    | Except.ok _ =>
      { state, childHookRan := false, parentHookRan := true, pid := some forkRet,
        result := Except.ok forkRet }

/-- The shared drain loop of `SimpleOutputReader::read_all_bl`
(src/reader.rs lines 46-66) and `SimultaneousOutputReader::thread_fn`
(src/reader.rs lines 123-151).  Each scripted iteration supplies the value
of `pipe.read_line()` (`none` for EOF, `some (instant, line)` for a line)
and the `ProcessState` returned by `child.check_state_nbl()` in that
iteration.  The loop records the line (if any), sets `eof` from the most
recent read, and breaks exactly when `process_finished && eof`.  `none`
means the script ran out before the loop broke, i.e. the loop is still
running. -/
def breakNow (line : Option (Nat × String)) (st : ProcessState) : Bool :=
  let process_is_running := decide (st = ProcessState.Running)
  let process_finished := !process_is_running
  process_finished && line.isNone

/-- The drain loop itself, folded over the iteration script with the
accumulated `lines` vector. -/
def drainLoop : List (Option (Nat × String) × ProcessState) → List (Nat × String) →
    Option (List (Nat × String))
  | [], _ => none
  | (line, st) :: rest, acc =>
    let acc :=
      match line with
      | none => acc
      | some l => acc ++ [l]
    if breakNow line st then some acc else drainLoop rest acc

/-- `ProcessOutput` from src/lib.rs lines 33-48.  `stdcombined_lines` is a
plain (non-optional) field: the combined sequence is present in every
output the library builds. -/
structure ProcessOutput where
  exit_code : Int
  stdout_lines : Option (List String)
  stderr_lines : Option (List String)
  stdcombined_lines : List String
  strategy : OCatchStrategy
  deriving DecidableEq, Repr

/-- One `BTreeMap<Instant, line>` insertion, on the sorted association-list
model of the map: inserting an existing key replaces the stored value,
as `BTreeMap::insert` does in src/reader.rs lines 180-186. -/
def btInsert : List (Nat × String) → Nat → String → List (Nat × String)
  | [], k, v => [(k, v)]
  | (k', v') :: rest, k, v =>
    if k < k' then (k, v) :: (k', v') :: rest
    else if k = k' then (k, v) :: rest
    else (k', v') :: btInsert rest k v

/-- The combined-map construction of `SimultaneousOutputReader::read_all_bl`
(src/reader.rs lines 179-186): start from the empty map, insert every
timestamped stdout line in order, then every timestamped stderr line in
order.  Iterating the resulting map yields entries by ascending timestamp. -/
def stdcombinedMap (stdout stderr : List (Nat × String)) : List (Nat × String) :=
  List.foldl (fun m kv => btInsert m kv.1 kv.2)
    (List.foldl (fun m kv => btInsert m kv.1 kv.2) [] stdout) stderr

/-- `combined.values()` of src/reader.rs lines 199-202: the merged lines,
timestamps stripped. -/
def stdcombinedOf (stdout stderr : List (Nat × String)) : List String :=
  (stdcombinedMap stdout stderr).map Prod.snd

/-- `SimpleOutputReader::read_all_bl` (src/reader.rs lines 46-77), run over a
scripted drain loop.  `exitCode` scripts `self.child.exit_code()` after the
loop; the source `unwrap`s it, so a missing code is a panic (`none`).
The reader stores the bare lines (it discards each line's `Instant` at the
`Some((_, line))` match) and builds the output with `None` for both
per-stream sequences and the `StdCombined` strategy tag. -/
def read_all_bl_simple (script : List (Option (Nat × String) × ProcessState))
    (exitCode : Option Int) : Option ProcessOutput :=
  match drainLoop script [] with
  | none => none
  | some tsLines =>
    match exitCode with
    | none => none
    | some ec =>
      some { exit_code := ec, stdout_lines := none, stderr_lines := none,
             stdcombined_lines := tsLines.map Prod.snd,
             strategy := OCatchStrategy.StdCombined }

/-- `SimultaneousOutputReader::read_all_bl` (src/reader.rs lines 155-211),
with the two drain threads scripted by `stdoutScript` and `stderrScript`.
Both per-stream sequences are wrapped in `Some`, the combined sequence is
the timestamp-sorted merge, and the strategy tag is `StdSeparately`. -/
def read_all_bl_simultaneous
    (stdoutScript stderrScript : List (Option (Nat × String) × ProcessState))
    (exitCode : Option Int) : Option ProcessOutput :=
  match drainLoop stdoutScript [], drainLoop stderrScript [] with
  | some stdout, some stderr =>
    match exitCode with
    | none => none
    | some ec =>
      some { exit_code := ec,
             stdout_lines := some (stdout.map Prod.snd),
             stderr_lines := some (stderr.map Prod.snd),
             stdcombined_lines := stdcombinedOf stdout stderr,
             strategy := OCatchStrategy.StdSeparately }
  | _, _ => none

/-- C2: the drain loop shared by the combined reader and the per-stream drain
threads terminates at an iteration exactly when that iteration's read
returned end-of-stream AND the polled process state is not `Running`; an
iteration whose read returned a line never terminates the loop, whatever
the process state; end-of-stream with the process still `Running` also
continues the loop. -/
theorem c2_drain_loop_exit_condition :
    (∀ l st rest acc, drainLoop ((some l, st) :: rest) acc = drainLoop rest (acc ++ [l]))
  ∧ (∀ st rest acc, st ≠ ProcessState.Running → drainLoop ((none, st) :: rest) acc = some acc)
  ∧ (∀ rest acc, drainLoop ((none, ProcessState.Running) :: rest) acc = drainLoop rest acc) := by
  refine ⟨?_, ?_, ?_⟩
  · intro l st rest acc
    simp [drainLoop, breakNow]
  · intro st rest acc h
    simp [drainLoop, breakNow, h]
  · intro rest acc
    simp [drainLoop, breakNow]

/-- Witness for C2: a scripted iteration with end-of-stream and a terminal
process state does terminate the loop. -/
theorem c2_drain_loop_exit_condition_witness :
    drainLoop [(none, ProcessState.FinishedSuccess)] [] = some [] :=
  c2_drain_loop_exit_condition.2.1 ProcessState.FinishedSuccess [] [] (by decide)

/-- C4 (code bug): decoding a wait status in `check_state_nbl`.  A normal
exit with code 5 (status `0x0500`) is recorded as `FinishedError 5` with
exit code 5, as the claim says; but a child killed by signal 9 (status 9)
is recorded as `FinishedSuccess` with exit code 0, because the source
applies `WEXITSTATUS` (the high byte, zero for a signal death) even in the
signalled case — not a non-zero code distinguishable from a successful
exit. -/
theorem c4_signal_death_recorded_as_success :
    check_state_nbl { pid := some 7, exit_code := none, state := ProcessState.Running }
        (7, 0, 1280)
      = PollResult.ok true
          { pid := some 7, exit_code := some 5, state := ProcessState.FinishedError 5 }
          (ProcessState.FinishedError 5)
  ∧ check_state_nbl { pid := some 7, exit_code := none, state := ProcessState.Running }
        (7, 0, 9)
      = PollResult.ok true
          { pid := some 7, exit_code := some 0, state := ProcessState.FinishedSuccess }
          ProcessState.FinishedSuccess := by
  constructor <;> rfl

/-- C5 counterexample: a read on a channel whose end marker is still
unassigned does not fail with the `ChannelNotReadable`
(`PipeNotMarkedAsReadEnd`) error — the `expect` on the unassigned marker
panics instead. -/
theorem c5_unassigned_read_not_error :
    (read_line none [ReadEvent.byte 'a'] 0).1 ≠ RLResult.err UECOError.PipeNotMarkedAsReadEnd := by
  decide

/-- C5 amended: a read on a channel whose end marker was assigned as the
producer (`Write`) end fails with `PipeNotMarkedAsReadEnd` and consumes no
byte of the stream; a read on a channel whose end marker is still
unassigned aborts with a panic (also consuming no byte) rather than
returning the typed error. -/
theorem c5_not_consumer_read_refused (stream : List ReadEvent) (clock : Nat) :
    read_line (some PipeEnd.Write) stream clock
      = (RLResult.err UECOError.PipeNotMarkedAsReadEnd, stream)
  ∧ read_line none stream clock = (RLResult.panicked, stream) :=
  ⟨rfl, rfl⟩

/-- C8 counterexample: `dispatch` sets the handle state to `Running` BEFORE
calling `fork`, so after a failed fork the handle does report `Running`. -/
theorem c8_failed_fork_reports_running :
    (dispatch ProcessState.Ready (-1) 5 (Except.ok ()) (Except.ok ()) (Except.ok ())).state
      = ProcessState.Running := rfl

/-- C8 amended: when the fork syscall fails, the caller receives
`ForkFailed(errno)` (the spec's `ProcessSpawnFailed`), neither the
child-side nor the parent-side hook runs, and no pid is recorded — but the
handle's state field was already set to `Running` before the fork attempt,
so on failure the handle does report `Running`. -/
theorem c8_fork_failure_behaviour (st0 : ProcessState) (errno : Int)
    (childHook parentHook execRes : Except UECOError Unit) :
    dispatch st0 (-1) errno childHook parentHook execRes
      = { state := ProcessState.Running, childHookRan := false, parentHookRan := false,
          pid := none, result := Except.error (UECOError.ForkFailed errno) } := rfl

/-- C9 counterexample: when the `waitpid` query fails at the OS level
(return value `-1`, errno 5), the poll does not return the typed
`WaitpidFailed` (`ProcessStatusQueryFailed`) error to the caller — the
source `unwrap`s the error, so the thread aborts with a panic that merely
formats that error value. -/
theorem c9_failed_query_panics :
    check_state_nbl { pid := some 7, exit_code := none, state := ProcessState.Running }
        (-1, 5, 0)
      = PollResult.panicked (some (UECOError.WaitpidFailed 5)) := rfl

/-- C9 amended: for every running child with a recorded pid, a failed
`waitpid` query makes `check_state_nbl` abort by panic carrying the
`WaitpidFailed(errno)` value; no error result (and no partial captured
text) is delivered to the caller. -/
theorem c9_failed_query_always_panics (pid errno : Int) (ec : Option Int) (status : Nat) :
    check_state_nbl { pid := some pid, exit_code := ec, state := ProcessState.Running }
        (-1, errno, status)
      = PollResult.panicked (some (UECOError.WaitpidFailed errno)) := rfl

/-- C10: assigning a channel end (consumer via `mark_as_parent_process`,
producer via `mark_as_child_process`) sets the end marker before closing
the unused descriptor; when the close fails (scripted return `-1`) the
operation returns `CloseFailed(errno)` while the end marker has
nonetheless already been changed — the assignment is not atomic on error. -/
theorem c10_mark_sets_end_before_close (p : PipeState) (errno : Int) :
    ((mark_as_parent_process p (-1) errno).1.endMarker = some PipeEnd.Read
      ∧ (mark_as_parent_process p (-1) errno).2
          = Except.error (UECOError.CloseFailed errno))
  ∧ ((mark_as_child_process p (-1) errno).1.endMarker = some PipeEnd.Write
      ∧ (mark_as_child_process p (-1) errno).2
          = Except.error (UECOError.CloseFailed errno)) :=
  ⟨⟨rfl, rfl⟩, ⟨rfl, rfl⟩⟩

/-- C3: every `ProcessOutput` a reader successfully returns carries `none`
for both per-stream sequences under the combined strategy and `some` for
both under the separate strategy, with the matching strategy tag; the
combined sequence is a plain field of `ProcessOutput`, hence present in
both cases. -/
theorem c3_output_presence :
    (∀ script ec out, read_all_bl_simple script ec = some out →
        out.stdout_lines = none ∧ out.stderr_lines = none
          ∧ out.strategy = OCatchStrategy.StdCombined)
  ∧ (∀ so se ec out, read_all_bl_simultaneous so se ec = some out →
        out.stdout_lines.isSome = true ∧ out.stderr_lines.isSome = true
          ∧ out.strategy = OCatchStrategy.StdSeparately) := by
  constructor
  · intro script ec out h
    unfold read_all_bl_simple at h
    split at h
    · exact absurd h (by simp)
    · split at h
      · exact absurd h (by simp)
      · injection h with h
        subst h
        exact ⟨rfl, rfl, rfl⟩
  · intro so se ec out h
    unfold read_all_bl_simultaneous at h
    split at h
    · split at h
      · exact absurd h (by simp)
      · injection h with h
        subst h
        exact ⟨rfl, rfl, rfl⟩
    · exact absurd h (by simp)

/-- Witness for C3: both readers run on the script of a single
end-of-stream iteration against an already-finished child. -/
theorem c3_output_presence_witness :
    ((ProcessOutput.mk 0 none none [] OCatchStrategy.StdCombined).stdout_lines = none
      ∧ (ProcessOutput.mk 0 none none [] OCatchStrategy.StdCombined).stderr_lines = none
      ∧ (ProcessOutput.mk 0 none none [] OCatchStrategy.StdCombined).strategy
          = OCatchStrategy.StdCombined)
  ∧ ((ProcessOutput.mk 0 (some []) (some []) []
          OCatchStrategy.StdSeparately).stdout_lines.isSome = true
      ∧ (ProcessOutput.mk 0 (some []) (some []) []
          OCatchStrategy.StdSeparately).stderr_lines.isSome = true
      ∧ (ProcessOutput.mk 0 (some []) (some []) []
          OCatchStrategy.StdSeparately).strategy = OCatchStrategy.StdSeparately) :=
  ⟨c3_output_presence.1 [(none, ProcessState.FinishedSuccess)] (some 0) _ rfl,
   c3_output_presence.2 [(none, ProcessState.FinishedSuccess)]
     [(none, ProcessState.FinishedSuccess)] (some 0) _ rfl⟩

/-- The byte loop of `read_line` on a stream whose next bytes are `cs`
(none of them a newline) followed by a newline: it returns the accumulated
characters with the clock value at the newline. -/
theorem readLineLoop_newline (cs : List Char) (rest : List ReadEvent) (clock : Nat)
    (acc : List Char) (h : ∀ c ∈ cs, c ≠ '\n') :
    readLineLoop (cs.map ReadEvent.byte ++ ReadEvent.byte '\n' :: rest) clock acc
      = (RLResult.ok (some (clock + cs.length, String.mk (acc ++ cs))), rest) := by
  induction cs generalizing clock acc with
  | nil => simp [readLineLoop]
  | cons c cs ih =>
    have hc : c ≠ '\n' := h c (List.mem_cons_self c cs)
    have hrec := ih (clock + 1) (acc ++ [c]) (fun x hx => h x (List.mem_cons_of_mem c hx))
    have h1 : clock + 1 + cs.length = clock + (c :: cs).length := by
      simp only [List.length_cons]
      omega
    have h2 : acc ++ [c] ++ cs = acc ++ c :: cs := by simp
    rw [h1, h2] at hrec
    simpa [readLineLoop, if_neg hc, List.append_eq] using hrec

/-- The byte loop of `read_line` on a stream whose next bytes are `cs`
(none of them a newline) followed by a zero-length read: the pending
fragment is discarded and end-of-stream (`none`) is returned. -/
theorem readLineLoop_eof (cs : List Char) (rest : List ReadEvent) (clock : Nat)
    (acc : List Char) (h : ∀ c ∈ cs, c ≠ '\n') :
    readLineLoop (cs.map ReadEvent.byte ++ ReadEvent.eof :: rest) clock acc
      = (RLResult.ok none, rest) := by
  induction cs generalizing clock acc with
  | nil => simp [readLineLoop]
  | cons c cs ih =>
    have hc : c ≠ '\n' := h c (List.mem_cons_self c cs)
    have hrec := ih (clock + 1) (acc ++ [c]) (fun x hx => h x (List.mem_cons_of_mem c hx))
    simpa [readLineLoop, if_neg hc, List.append_eq] using hrec

/-- C6: a consumer-side `read_line` over the scripted byte stream returns
the accumulated text up to (and excluding) the newline, timestamped with
the clock at the moment the newline is observed; a zero-length read
yields "no line" and discards any pending unterminated fragment; a lone
newline yields the empty string, not end-of-stream. -/
theorem c6_read_line_behaviour (cs : List Char) (rest : List ReadEvent) (clock : Nat)
    (h : ∀ c ∈ cs, c ≠ '\n') :
    read_line (some PipeEnd.Read) (cs.map ReadEvent.byte ++ ReadEvent.byte '\n' :: rest) clock
      = (RLResult.ok (some (clock + cs.length, String.mk cs)), rest)
  ∧ read_line (some PipeEnd.Read) (cs.map ReadEvent.byte ++ ReadEvent.eof :: rest) clock
      = (RLResult.ok none, rest)
  ∧ read_line (some PipeEnd.Read) (ReadEvent.byte '\n' :: rest) clock
      = (RLResult.ok (some (clock, "")), rest) := by
  refine ⟨?_, ?_, ?_⟩
  · have := readLineLoop_newline cs rest clock [] h
    simpa [read_line] using this
  · have := readLineLoop_eof cs rest clock [] h
    simpa [read_line] using this
  · have := readLineLoop_newline [] rest clock [] (by simp)
    simpa [read_line] using this

/-- Witness for C6: reading the bytes `h`, `i`, newline yields the line
`"hi"` with the clock of the newline. -/
theorem c6_read_line_behaviour_witness :
    read_line (some PipeEnd.Read)
        [ReadEvent.byte 'h', ReadEvent.byte 'i', ReadEvent.byte '\n'] 0
      = (RLResult.ok (some (2, "hi")), []) := by
  have h := (c6_read_line_behaviour ['h', 'i'] [] 0 (by decide)).1
  simpa using h

/-- C7: one `check_state_nbl` poll never decreases the lifecycle rank along
`Ready → Running → Finished*` (in particular it never moves backwards or
between terminal states), the returned state is the stored state after the
poll, and when the stored state is already terminal the poll returns the
whole cached child state (terminal state and cached exit code included)
without issuing a `waitpid` query. -/
theorem c7_poll_monotonic_and_cached (c : ChildState) (ret errno : Int) (status : Nat)
    (q : Bool) (c' : ChildState) (r : ProcessState)
    (h : check_state_nbl c (ret, errno, status) = PollResult.ok q c' r) :
    stateRank c.state ≤ stateRank c'.state
  ∧ r = c'.state
  ∧ (isTerminal c.state = true → c' = c ∧ r = c.state ∧ q = false) := by
  obtain ⟨pid, ec, st⟩ := c
  by_cases hrun : st = ProcessState.Running
  · subst hrun
    cases pid with
    | none => simp [check_state_nbl] at h
    | some p =>
      simp only [check_state_nbl, ne_eq, not_true_eq_false, if_false, reduceIte] at h
      split at h
      · exact absurd h (by simp)
      · split at h
        · obtain ⟨hq, hc, hr⟩ := (PollResult.ok.injEq ..).mp h
          subst hc
          exact ⟨le_refl _, hr.symm, by intro ht; simp [isTerminal] at ht⟩
        · split at h
          · obtain ⟨hq, hc, hr⟩ := (PollResult.ok.injEq ..).mp h
            subst hc
            refine ⟨?_, hr.symm, by intro ht; simp [isTerminal] at ht⟩
            split
            · simp [stateRank]
            · simp [stateRank]
          · obtain ⟨hq, hc, hr⟩ := (PollResult.ok.injEq ..).mp h
            subst hc
            exact ⟨le_refl _, hr.symm, by intro ht; simp [isTerminal] at ht⟩
  · have : check_state_nbl ⟨pid, ec, st⟩ (ret, errno, status)
        = PollResult.ok false ⟨pid, ec, st⟩ st := by
      simp [check_state_nbl, hrun]
    rw [this] at h
    obtain ⟨hq, hc, hr⟩ := (PollResult.ok.injEq ..).mp h
    subst hc
    exact ⟨le_refl _, hr.symm, fun _ => ⟨rfl, hr.symm, hq.symm⟩⟩

/-- Witness for C7: polling a child whose stored state is already
`FinishedSuccess` with cached exit code 0 returns it unchanged without a
query. -/
theorem c7_poll_monotonic_and_cached_witness :
    stateRank (ChildState.mk (some 7) (some 0) ProcessState.FinishedSuccess).state
        ≤ stateRank (ChildState.mk (some 7) (some 0) ProcessState.FinishedSuccess).state
  ∧ ChildState.mk (some 7) (some 0) ProcessState.FinishedSuccess
      = ChildState.mk (some 7) (some 0) ProcessState.FinishedSuccess
  ∧ ProcessState.FinishedSuccess
      = (ChildState.mk (some 7) (some 0) ProcessState.FinishedSuccess).state
  ∧ false = false := by
  have h := c7_poll_monotonic_and_cached
    (ChildState.mk (some 7) (some 0) ProcessState.FinishedSuccess) 3 0 0
    false (ChildState.mk (some 7) (some 0) ProcessState.FinishedSuccess)
    ProcessState.FinishedSuccess rfl
  have h3 := h.2.2 rfl
  exact ⟨h.1, h3.1, h3.2.1, h3.2.2⟩

/-- Ordering invariant of the association-list model of `BTreeMap`:
entries carry strictly increasing timestamps. -/
def btOrdered (m : List (Nat × String)) : Prop :=
  List.Pairwise (fun a b : Nat × String => a.1 < b.1) m

/-- A timestamp is a key of `btInsert m k v` iff it is `k` or a key of `m`. -/
theorem btInsert_mem_keys (m : List (Nat × String)) (k : Nat) (v : String) (x : Nat) :
    x ∈ (btInsert m k v).map Prod.fst ↔ x = k ∨ x ∈ m.map Prod.fst := by
  induction m with
  | nil => simp [btInsert]
  | cons hd tl ih =>
    obtain ⟨k', v'⟩ := hd
    by_cases h1 : k < k'
    · simp [btInsert, h1]
    · by_cases h2 : k = k'
      · subst h2
        simp [btInsert, h1]
      · simp only [btInsert, if_neg h1, if_neg h2, List.map_cons, List.mem_cons, ih]
        tauto

/-- Every entry of `btInsert m k v` is the inserted pair or an entry of `m`. -/
theorem btInsert_mem (m : List (Nat × String)) (k : Nat) (v : String)
    (p : Nat × String) (hp : p ∈ btInsert m k v) : p = (k, v) ∨ p ∈ m := by
  induction m with
  | nil =>
    simp [btInsert] at hp
    exact Or.inl hp
  | cons hd tl ih =>
    obtain ⟨k', v'⟩ := hd
    by_cases h1 : k < k'
    · simp only [btInsert, if_pos h1, List.mem_cons] at hp
      rcases hp with h | h | h
      · exact Or.inl h
      · exact Or.inr (by simp [h])
      · exact Or.inr (by simp [h])
    · by_cases h2 : k = k'
      · simp only [btInsert, if_neg h1, if_pos h2, List.mem_cons] at hp
        rcases hp with h | h
        · exact Or.inl h
        · exact Or.inr (List.mem_cons_of_mem _ h)
      · simp only [btInsert, if_neg h1, if_neg h2, List.mem_cons] at hp
        rcases hp with h | h
        · exact Or.inr (by simp [h])
        · rcases ih h with h' | h'
          · exact Or.inl h'
          · exact Or.inr (List.mem_cons_of_mem _ h')

/-- `btInsert` preserves the strict ordering invariant. -/
theorem btInsert_ordered (m : List (Nat × String)) (k : Nat) (v : String)
    (hm : btOrdered m) : btOrdered (btInsert m k v) := by
  induction m with
  | nil => simp [btInsert, btOrdered]
  | cons hd tl ih =>
    obtain ⟨k', v'⟩ := hd
    rw [btOrdered, List.pairwise_cons] at hm
    obtain ⟨hhd, htl⟩ := hm
    by_cases h1 : k < k'
    · rw [btOrdered, btInsert, if_pos h1]
      refine List.Pairwise.cons ?_ (List.Pairwise.cons hhd htl)
      intro q hq
      rcases List.mem_cons.mp hq with h | h
      · subst h
        exact h1
      · exact lt_trans h1 (hhd q h)
    · by_cases h2 : k = k'
      · subst h2
        rw [btOrdered, btInsert, if_neg h1, if_pos rfl]
        exact List.Pairwise.cons hhd htl
      · have h3 : k' < k := by omega
        rw [btOrdered, btInsert, if_neg h1, if_neg h2]
        refine List.Pairwise.cons ?_ (ih htl)
        intro q hq
        rcases btInsert_mem tl k v q hq with h | h
        · subst h
          exact h3
        · exact hhd q h


/-- Folding insertions of `l` into `m` preserves the ordering invariant. -/
theorem btFold_ordered (l : List (Nat × String)) (m : List (Nat × String))
    (hm : btOrdered m) :
    btOrdered (List.foldl (fun m kv => btInsert m kv.1 kv.2) m l) := by
  induction l generalizing m with
  | nil => exact hm
  | cons kv l ih =>
    exact ih (btInsert m kv.1 kv.2) (btInsert_ordered m kv.1 kv.2 hm)

/-- The keys after folding insertions of `l` into `m` are the keys of `m`
together with the timestamps of `l`. -/
theorem btFold_mem_keys (l : List (Nat × String)) (m : List (Nat × String)) (x : Nat) :
    x ∈ (List.foldl (fun m kv => btInsert m kv.1 kv.2) m l).map Prod.fst
      ↔ x ∈ m.map Prod.fst ∨ x ∈ l.map Prod.fst := by
  induction l generalizing m with
  | nil => simp
  | cons kv l ih =>
    simp only [List.foldl_cons, ih (btInsert m kv.1 kv.2), btInsert_mem_keys,
      List.map_cons, List.mem_cons]
    tauto

/-- Every entry after folding insertions of `l` into `m` is an entry of `m`
or an element of `l`. -/
theorem btFold_mem (l : List (Nat × String)) (m : List (Nat × String))
    (p : Nat × String)
    (hp : p ∈ List.foldl (fun m kv => btInsert m kv.1 kv.2) m l) :
    p ∈ m ∨ p ∈ l := by
  induction l generalizing m with
  | nil => exact Or.inl hp
  | cons kv l ih =>
    rcases ih (btInsert m kv.1 kv.2) hp with h | h
    · rcases btInsert_mem m kv.1 kv.2 p h with h' | h'
      · exact Or.inr (by simp [h'])
      · exact Or.inl h'
    · exact Or.inr (List.mem_cons_of_mem _ h)

/-- C1: the combined map built by the dual-stream reader lists entries by
strictly ascending capture timestamp (hence at most one line per
timestamp), every entry is one of the captured timestamped lines, every
captured timestamp is represented, the number of combined lines equals the
number of distinct timestamps among all captured lines, and the reader's
combined line sequence is exactly this map's values. -/
theorem c1_separate_merge (o e : List (Nat × String)) :
    List.Pairwise (fun a b : Nat × String => a.1 < b.1) (stdcombinedMap o e)
  ∧ (∀ p ∈ stdcombinedMap o e, p ∈ o ++ e)
  ∧ (∀ t, t ∈ (stdcombinedMap o e).map Prod.fst ↔ t ∈ (o ++ e).map Prod.fst)
  ∧ (stdcombinedMap o e).length = ((o ++ e).map Prod.fst).toFinset.card
  ∧ stdcombinedOf o e = (stdcombinedMap o e).map Prod.snd := by
  have hord : btOrdered (stdcombinedMap o e) := by
    unfold stdcombinedMap
    exact btFold_ordered e _ (btFold_ordered o [] (by simp [btOrdered]))
  have hmem : ∀ p ∈ stdcombinedMap o e, p ∈ o ++ e := by
    intro p hp
    unfold stdcombinedMap at hp
    rcases btFold_mem e _ p hp with h | h
    · rcases btFold_mem o [] p h with h' | h'
      · simp at h'
      · simp [h']
    · simp [h]
  have hkeys : ∀ t, t ∈ (stdcombinedMap o e).map Prod.fst ↔ t ∈ (o ++ e).map Prod.fst := by
    intro t
    unfold stdcombinedMap
    rw [btFold_mem_keys, btFold_mem_keys]
    simp
  have hnodup : ((stdcombinedMap o e).map Prod.fst).Nodup := by
    have := (List.pairwise_map).mpr hord
    exact this.imp (fun hlt => Nat.ne_of_lt hlt)
  have hlen : (stdcombinedMap o e).length = ((o ++ e).map Prod.fst).toFinset.card := by
    have hfs : ((stdcombinedMap o e).map Prod.fst).toFinset
        = ((o ++ e).map Prod.fst).toFinset := by
      apply Finset.ext
      intro t
      rw [List.mem_toFinset, List.mem_toFinset]
      exact hkeys t
    calc (stdcombinedMap o e).length
        = ((stdcombinedMap o e).map Prod.fst).length := by simp
      _ = ((stdcombinedMap o e).map Prod.fst).toFinset.card :=
          (List.toFinset_card_of_nodup hnodup).symm
      _ = ((o ++ e).map Prod.fst).toFinset.card := by rw [hfs]
  exact ⟨hord, hmem, hkeys, hlen, rfl⟩

end Ueco
